import Mathlib

/-
Verification of the spaced-repetition core of the lang-bot repository.

Embedding conventions:
- Python floats are modelled as exact rationals (ℚ).
- Timestamps are rational epoch-seconds; one day is 86400 seconds, so Python
  `timedelta(days=n)` becomes `n * SECONDS_PER_DAY`.
- Python `int(x)` truncates toward zero; it is modelled by `pyInt`.
- A raised `ValueError` is modelled as `Except.error`.

Sources embedded:
- src/bot/core/constants.py
- src/bot/core/spaced_repetition.py   (calculate_next_review)
- src/bot/core/card_scheduler.py      (_calculate_priority, prioritize_cards,
                                       mix_new_and_review_cards, get_next_card_for_learning)
- src/bot/database/models/card.py     (Card SRS fields, Card.is_due)
- src/bot/services/learning_service.py (validate_srs_result, process_card_review)
-/

/-! ## Constants (src/bot/core/constants.py) -/

def DEFAULT_EASE_FACTOR : ℚ := 2.5

def MIN_EASE_FACTOR : ℚ := 1.3

def EASE_FACTOR_MODIFIER : ℚ := 0.15

def INITIAL_INTERVAL_AGAIN : ℤ := 0

def INITIAL_INTERVAL_HARD : ℤ := 1

def INITIAL_INTERVAL_GOOD : ℤ := 1

def INITIAL_INTERVAL_EASY : ℤ := 4

def QUALITY_AGAIN : ℤ := 0

def QUALITY_HARD : ℤ := 2

def QUALITY_GOOD : ℤ := 3

def QUALITY_EASY : ℤ := 5

def HARD_INTERVAL_MULTIPLIER : ℚ := 1.2

def EASE_BONUS : ℚ := 1.3

def MAX_INTERVAL_DAYS : ℤ := 365

def DEFAULT_CARDS_PER_SESSION : ℕ := 20

def MAX_NEW_CARDS_PER_DAY : ℕ := 20

def SECONDS_PER_DAY : ℚ := 86400

/-! ## Python `int()` truncation toward zero -/

/-- Python `int(x)` applied to a real number: truncation toward zero. -/
def pyInt (q : ℚ) : ℤ := if 0 ≤ q then ⌊q⌋ else ⌈q⌉

lemma pyInt_of_nonneg {q : ℚ} (h : 0 ≤ q) : pyInt q = ⌊q⌋ := if_pos h

lemma pyInt_nonneg {q : ℚ} (h : 0 ≤ q) : 0 ≤ pyInt q := by
  rw [pyInt_of_nonneg h]
  exact Int.floor_nonneg.mpr h

lemma pyInt_neg_of_nonneg {q : ℚ} (h : 0 ≤ q) : pyInt (-q) = -⌊q⌋ := by
  rcases eq_or_lt_of_le h with h0 | h0
  · rw [← h0]
    simp [pyInt]
  · have hneg : ¬ (0 ≤ -q) := by linarith
    rw [pyInt, if_neg hneg, Int.ceil_neg]

/-! ## Review Outcome Calculator (src/bot/core/spaced_repetition.py) -/

/-- Result of the spaced-repetition calculation (`SRSResult` NamedTuple). -/
structure SRSResult where
  ease_factor : ℚ
  interval : ℤ
  repetitions : ℤ
  next_review : ℚ
deriving Repr, DecidableEq

/-- The computation performed by `calculate_next_review` after the quality guard
(lines 71-139 of spaced_repetition.py).  `sm2_ease_factor` is the candidate ease
factor computed for quality ≥ 3; the Easy branch uses it for the interval but then
overwrites the returned ease factor with `ease_factor + EASE_FACTOR_MODIFIER`.
`step` collects (new_interval, new_repetitions, new_ease_factor). -/
def srs_core (quality : ℤ) (ease_factor : ℚ) (interval : ℤ) (repetitions : ℤ)
    (current_time : ℚ) : SRSResult :=
  let sm2_ease_factor : ℚ :=
    if QUALITY_GOOD ≤ quality then
      max (ease_factor + (0.1 - ((5 : ℚ) - (quality : ℚ)) * (0.08 + ((5 : ℚ) - (quality : ℚ)) * 0.02)))
        MIN_EASE_FACTOR
    else ease_factor
  let step : ℤ × ℤ × ℚ :=
    if quality = QUALITY_AGAIN then
      (INITIAL_INTERVAL_AGAIN, 0, max (ease_factor - EASE_FACTOR_MODIFIER) MIN_EASE_FACTOR)
    else if quality = QUALITY_HARD then
      if repetitions = 0 then
        (INITIAL_INTERVAL_HARD, 1, max (ease_factor - EASE_FACTOR_MODIFIER * 0.5) MIN_EASE_FACTOR)
      else
        (pyInt ((interval : ℚ) * HARD_INTERVAL_MULTIPLIER), repetitions + 1,
          max (ease_factor - EASE_FACTOR_MODIFIER * 0.5) MIN_EASE_FACTOR)
    else if quality = QUALITY_GOOD then
      if repetitions = 0 then (INITIAL_INTERVAL_GOOD, 1, sm2_ease_factor)
      else if repetitions = 1 then (6, 2, sm2_ease_factor)
      else (pyInt ((interval : ℚ) * sm2_ease_factor), repetitions + 1, sm2_ease_factor)
    else
      if repetitions = 0 then
        (INITIAL_INTERVAL_EASY, 1, ease_factor + EASE_FACTOR_MODIFIER)
      else
        (pyInt ((interval : ℚ) * sm2_ease_factor * EASE_BONUS), repetitions + 1,
          ease_factor + EASE_FACTOR_MODIFIER)
  let capped_interval : ℤ := min step.1 MAX_INTERVAL_DAYS
  { ease_factor := step.2.2
    interval := capped_interval
    repetitions := step.2.1
    next_review := current_time + (capped_interval : ℚ) * SECONDS_PER_DAY }

/-- `calculate_next_review` with the injected clock: validates the quality rating
(raising `ValueError` for anything outside {0, 2, 3, 5}) and otherwise performs
the SM-2 computation. -/
def calculate_next_review (quality : ℤ) (ease_factor : ℚ) (interval : ℤ)
    (repetitions : ℤ) (current_time : ℚ) : Except String SRSResult :=
  if quality = QUALITY_AGAIN ∨ quality = QUALITY_HARD ∨ quality = QUALITY_GOOD ∨
      quality = QUALITY_EASY then
    Except.ok (srs_core quality ease_factor interval repetitions current_time)
  else
    Except.error "Invalid quality rating"

/-! ### Per-branch evaluation lemmas for `srs_core` -/

lemma srs_core_again (ef : ℚ) (i r : ℤ) (t : ℚ) :
    srs_core 0 ef i r t = ⟨max (ef - 0.15) 1.3, 0, 0, t⟩ := by
  simp only [srs_core, QUALITY_AGAIN, QUALITY_HARD, QUALITY_GOOD, QUALITY_EASY,
    INITIAL_INTERVAL_AGAIN, EASE_FACTOR_MODIFIER, MIN_EASE_FACTOR, MAX_INTERVAL_DAYS]
  norm_num

lemma srs_core_hard_zero (ef : ℚ) (i : ℤ) (t : ℚ) :
    srs_core 2 ef i 0 t = ⟨max (ef - 0.075) 1.3, 1, 1, t + SECONDS_PER_DAY⟩ := by
  simp only [srs_core, QUALITY_AGAIN, QUALITY_HARD, QUALITY_GOOD, QUALITY_EASY,
    INITIAL_INTERVAL_HARD, EASE_FACTOR_MODIFIER, MIN_EASE_FACTOR, MAX_INTERVAL_DAYS]
  norm_num

lemma srs_core_hard_pos (ef : ℚ) (i r : ℤ) (t : ℚ) (hr : r ≠ 0) :
    srs_core 2 ef i r t =
      ⟨max (ef - 0.075) 1.3, min (pyInt ((i : ℚ) * 1.2)) 365, r + 1,
        t + ((min (pyInt ((i : ℚ) * 1.2)) 365 : ℤ) : ℚ) * SECONDS_PER_DAY⟩ := by
  simp only [srs_core, QUALITY_AGAIN, QUALITY_HARD, QUALITY_GOOD, QUALITY_EASY,
    HARD_INTERVAL_MULTIPLIER, EASE_FACTOR_MODIFIER, MIN_EASE_FACTOR, MAX_INTERVAL_DAYS, hr]
  norm_num

lemma srs_core_good_zero (ef : ℚ) (i : ℤ) (t : ℚ) :
    srs_core 3 ef i 0 t = ⟨max (ef - 0.14) 1.3, 1, 1, t + SECONDS_PER_DAY⟩ := by
  simp only [srs_core, QUALITY_AGAIN, QUALITY_HARD, QUALITY_GOOD, QUALITY_EASY,
    INITIAL_INTERVAL_GOOD, MIN_EASE_FACTOR, MAX_INTERVAL_DAYS]
  norm_num [sub_eq_add_neg]

lemma srs_core_good_one (ef : ℚ) (i : ℤ) (t : ℚ) :
    srs_core 3 ef i 1 t = ⟨max (ef - 0.14) 1.3, 6, 2, t + 6 * SECONDS_PER_DAY⟩ := by
  simp only [srs_core, QUALITY_AGAIN, QUALITY_HARD, QUALITY_GOOD, QUALITY_EASY,
    MIN_EASE_FACTOR, MAX_INTERVAL_DAYS]
  norm_num [sub_eq_add_neg]

lemma srs_core_good_later (ef : ℚ) (i r : ℤ) (t : ℚ) (hr0 : r ≠ 0) (hr1 : r ≠ 1) :
    srs_core 3 ef i r t =
      ⟨max (ef - 0.14) 1.3, min (pyInt ((i : ℚ) * max (ef - 0.14) 1.3)) 365, r + 1,
        t + ((min (pyInt ((i : ℚ) * max (ef - 0.14) 1.3)) 365 : ℤ) : ℚ) * SECONDS_PER_DAY⟩ := by
  simp only [srs_core, QUALITY_AGAIN, QUALITY_HARD, QUALITY_GOOD, QUALITY_EASY,
    MIN_EASE_FACTOR, MAX_INTERVAL_DAYS, hr0, hr1]
  norm_num [sub_eq_add_neg]

lemma srs_core_easy_zero (ef : ℚ) (i : ℤ) (t : ℚ) :
    srs_core 5 ef i 0 t = ⟨ef + 0.15, 4, 1, t + 4 * SECONDS_PER_DAY⟩ := by
  simp only [srs_core, QUALITY_AGAIN, QUALITY_HARD, QUALITY_GOOD, QUALITY_EASY,
    INITIAL_INTERVAL_EASY, EASE_FACTOR_MODIFIER, MIN_EASE_FACTOR, MAX_INTERVAL_DAYS]
  norm_num

lemma srs_core_easy_pos (ef : ℚ) (i r : ℤ) (t : ℚ) (hr : r ≠ 0) :
    srs_core 5 ef i r t =
      ⟨ef + 0.15, min (pyInt ((i : ℚ) * max (ef + 0.1) 1.3 * 1.3)) 365, r + 1,
        t + ((min (pyInt ((i : ℚ) * max (ef + 0.1) 1.3 * 1.3)) 365 : ℤ) : ℚ) * SECONDS_PER_DAY⟩ := by
  simp only [srs_core, QUALITY_AGAIN, QUALITY_HARD, QUALITY_GOOD, QUALITY_EASY,
    EASE_BONUS, EASE_FACTOR_MODIFIER, MIN_EASE_FACTOR, MAX_INTERVAL_DAYS, hr]
  norm_num

/-! ## Orchestrator validation (src/bot/services/learning_service.py, validate_srs_result) -/

/-- Defensive validation of a calculator result (learning_service.py lines 28-46). -/
def validate_srs_result (result : SRSResult) : Bool :=
  if result.ease_factor < MIN_EASE_FACTOR ∨ result.ease_factor > 3.0 then false
  else if result.interval < 0 ∨ result.interval > MAX_INTERVAL_DAYS then false
  else if result.repetitions < 0 then false
  else true

lemma validate_srs_result_eq_true_iff (result : SRSResult) :
    validate_srs_result result = true ↔
      MIN_EASE_FACTOR ≤ result.ease_factor ∧ result.ease_factor ≤ 3.0 ∧
        0 ≤ result.interval ∧ result.interval ≤ MAX_INTERVAL_DAYS ∧
        0 ≤ result.repetitions := by
  unfold validate_srs_result
  split_ifs with h1 h2 h3
  · simp only [false_iff]
    push_neg
    intro hef1 hef2
    rcases h1 with h | h
    · exact absurd hef1 (not_le.mpr h)
    · exact absurd hef2 (not_le.mpr h)
  · simp only [false_iff]
    push_neg
    intro _ _ hi1
    rcases h2 with h | h
    · exact absurd hi1 (not_le.mpr h)
    · intro hi2
      exact absurd hi2 (not_le.mpr h)
  · simp only [false_iff]
    push_neg
    intro _ _ _ _
    exact h3
  · push_neg at h1 h2
    simp only [true_iff]
    exact ⟨h1.1, h1.2, h2.1, h2.2, not_lt.mp h3⟩

/-! ## Card model (src/bot/database/models/card.py) -/

/-- The SRS-relevant fields of a persisted card.  `created_at` comes from the
timestamp mixin; both timestamps are epoch seconds. -/
structure Card where
  id : ℤ
  ease_factor : ℚ
  interval : ℤ
  repetitions : ℤ
  next_review : ℚ
  created_at : ℚ
  total_reviews : ℤ
  correct_reviews : ℤ
deriving Repr, DecidableEq

/-- `Card.is_due`: the card is due when the clock has reached `next_review`. -/
def Card.is_due (card : Card) (now : ℚ) : Bool := decide (card.next_review ≤ now)

/-! ## Priority Scorer and Session Mixer (src/bot/core/card_scheduler.py) -/

/-- `_calculate_priority` (card_scheduler.py lines 46-72). -/
def _calculate_priority (card : Card) (current_time : ℚ) : ℤ :=
  if card.repetitions = 0 then
    pyInt (-card.created_at)
  else
    let time_diff := current_time - card.next_review
    if 0 < time_diff then -(pyInt time_diff)
    else pyInt (-time_diff)

/-- `prioritize_cards`: stable ascending sort by `_calculate_priority`. -/
def prioritize_cards (cards : List Card) (current_time : ℚ) : List Card :=
  let scheduled_cards := cards.map (fun card => (card, _calculate_priority card current_time))
  (scheduled_cards.mergeSort (fun a b => decide (a.2 ≤ b.2))).map (fun sc => sc.1)

lemma prioritize_cards_length (cards : List Card) (current_time : ℚ) :
    (prioritize_cards cards current_time).length = cards.length := by
  simp [prioritize_cards, List.length_mergeSort]

lemma prioritize_cards_eq_nil_iff (cards : List Card) (current_time : ℚ) :
    prioritize_cards cards current_time = [] ↔ cards = [] := by
  constructor
  · intro h
    have hl := congrArg List.length h
    rw [prioritize_cards_length] at hl
    exact List.eq_nil_of_length_eq_zero hl
  · intro h
    subst h
    simp [prioritize_cards]

/-- The interleaving while-loop of `mix_new_and_review_cards` (card_scheduler.py
lines 100-115): while either index is in range, append up to 3 due cards and then
up to one new card, advancing the indices accordingly. -/
def mix_loop (selected_review selected_new : List Card) (review_idx new_idx : ℕ) : List Card :=
  if new_idx < selected_new.length ∨ review_idx < selected_review.length then
    ((selected_review.drop review_idx).take 3) ++ ((selected_new.drop new_idx).take 1)
      ++ mix_loop selected_review selected_new
          (min (review_idx + 3) selected_review.length) (min (new_idx + 1) selected_new.length)
  else []
termination_by (selected_review.length - review_idx) + (selected_new.length - new_idx)
decreasing_by
  rcases Nat.lt_or_ge review_idx selected_review.length with h | h
  · omega
  · omega

/-- Python list slicing `l[:n]` for an `int` bound `n`: a nonnegative bound keeps
the first `n` elements; a negative bound keeps all but the last `|n|`. -/
def pySliceTo (l : List Card) (n : ℤ) : List Card :=
  if 0 ≤ n then l.take n.toNat else l.take (l.length - (-n).toNat)

/-- `mix_new_and_review_cards` (card_scheduler.py lines 75-117).
`remaining_slots = total_limit - len(selected_new)` is a Python `int` and can be
negative; `review_cards[:remaining_slots]` then keeps all but the last
`|remaining_slots|` review cards, which `pySliceTo` reproduces. -/
def mix_new_and_review_cards (new_cards review_cards : List Card)
    (new_cards_limit : ℕ := 5) (total_limit : ℕ := 20) : List Card :=
  let selected_new := new_cards.take new_cards_limit
  let remaining_slots : ℤ := (total_limit : ℤ) - (selected_new.length : ℤ)
  let selected_review := pySliceTo review_cards remaining_slots
  (mix_loop selected_review selected_new 0 0).take total_limit

/-- The interleaving step described by the spec: repeatedly take up to 3 entries
from the due list, then 1 entry from the new list, until both are exhausted.
Written by structural recursion on the new list; once the new list is exhausted
the remaining due cards are emitted in order in chunks of 3, i.e. unchanged. -/
def interleave3to1 : List Card → List Card → List Card
  | rev, [] => rev
  | rev, n :: ns => rev.take 3 ++ n :: interleave3to1 (rev.drop 3) ns

lemma interleave3to1_step (rev new : List Card) :
    interleave3to1 rev new
      = rev.take 3 ++ new.take 1 ++ interleave3to1 (rev.drop 3) (new.drop 1) := by
  cases new with
  | nil => simp [interleave3to1, List.take_append_drop]
  | cons n ns => simp [interleave3to1]

lemma mix_loop_eq_interleave3to1 (selected_review selected_new : List Card)
    (review_idx new_idx : ℕ) :
    mix_loop selected_review selected_new review_idx new_idx
      = interleave3to1 (selected_review.drop review_idx) (selected_new.drop new_idx) := by
  generalize hm : (selected_review.length - review_idx) + (selected_new.length - new_idx) = m
  induction m using Nat.strong_induction_on generalizing review_idx new_idx with
  | _ m ih =>
    rw [mix_loop]
    by_cases hg : new_idx < selected_new.length ∨ review_idx < selected_review.length
    · rw [if_pos hg]
      have hR : selected_review.drop (min (review_idx + 3) selected_review.length)
          = (selected_review.drop review_idx).drop 3 := by
        rcases le_or_lt (review_idx + 3) selected_review.length with h | h
        · rw [Nat.min_eq_left h, List.drop_drop]
        · rw [List.drop_eq_nil_of_le (by omega),
            List.drop_eq_nil_of_le (by simp [List.length_drop]; omega)]
      have hN : selected_new.drop (min (new_idx + 1) selected_new.length)
          = (selected_new.drop new_idx).drop 1 := by
        rcases le_or_lt (new_idx + 1) selected_new.length with h | h
        · rw [Nat.min_eq_left h, List.drop_drop]
        · rw [List.drop_eq_nil_of_le (by omega),
            List.drop_eq_nil_of_le (by simp [List.length_drop]; omega)]
      rw [ih ((selected_review.length - min (review_idx + 3) selected_review.length)
            + (selected_new.length - min (new_idx + 1) selected_new.length))
          (by omega) _ _ rfl]
      rw [hR, hN]
      exact (interleave3to1_step _ _).symm
    · rw [if_neg hg]
      push_neg at hg
      rw [List.drop_eq_nil_of_le hg.2, List.drop_eq_nil_of_le hg.1]
      rfl

/-- `get_next_card_for_learning` (card_scheduler.py lines 120-145). -/
def get_next_card_for_learning (deck_cards : List Card) (current_time : ℚ) : Option Card :=
  if deck_cards.isEmpty then none
  else
    let new_cards := deck_cards.filter (fun c => c.repetitions == 0)
    let due_cards := deck_cards.filter (fun c => decide (0 < c.repetitions) && c.is_due current_time)
    let prioritized := prioritize_cards (due_cards ++ new_cards) current_time
    prioritized.head?

/-! ## Review Transaction Orchestrator (src/bot/services/learning_service.py) -/

/-- Review audit record (`review_repo.create` arguments), carrying the *before*
snapshot of `ease_factor`/`interval`. -/
structure ReviewRecord where
  card_id : ℤ
  user_id : ℤ
  quality : ℤ
  reviewed_at : ℚ
  time_spent : Option ℤ
  ease_factor_before : ℚ
  interval_before : ℤ
deriving Repr, DecidableEq

/-- Persistent state touched by the orchestrator: the card table and the
append-only review log. -/
structure LearningState where
  cards : List Card
  reviews : List ReviewRecord
deriving Repr, DecidableEq

/-- `LearningService.process_card_review` (learning_service.py lines 109-179) as a
state transition: look up the card, snapshot `ease_factor`/`interval`, run the
Calculator, validate, write the four SRS fields and the counters back, and append
exactly one audit record.  Failures (`CardNotFound`, `InvalidQuality`,
`InvalidResult`) leave the state untouched. -/
def process_card_review (db : LearningState) (card_id user_id quality : ℤ)
    (time_spent : Option ℤ) (current_time : ℚ) : Except String (Card × LearningState) :=
  match db.cards.find? (fun c => c.id == card_id) with
  | none => Except.error "Card not found"
  | some card =>
    let ease_factor_before := card.ease_factor
    let interval_before := card.interval
    match calculate_next_review quality card.ease_factor card.interval card.repetitions
        current_time with
    | Except.error e => Except.error e
    | Except.ok srs_result =>
      if validate_srs_result srs_result then
        let updated_card : Card :=
          { card with
            ease_factor := srs_result.ease_factor
            interval := srs_result.interval
            repetitions := srs_result.repetitions
            next_review := srs_result.next_review
            total_reviews := card.total_reviews + 1
            correct_reviews := card.correct_reviews + (if 3 ≤ quality then 1 else 0) }
        let record : ReviewRecord :=
          { card_id := card_id
            user_id := user_id
            quality := quality
            reviewed_at := current_time
            time_spent := time_spent
            ease_factor_before := ease_factor_before
            interval_before := interval_before }
        Except.ok (updated_card,
          { cards := db.cards.map (fun c => if c.id == card_id then updated_card else c)
            reviews := db.reviews ++ [record] })
      else
        Except.error "Invalid SRS calculation result"

/-! ## Claims -/

lemma calculate_next_review_ok (quality : ℤ) (ef : ℚ) (i r : ℤ) (t : ℚ)
    (hq : quality = 0 ∨ quality = 2 ∨ quality = 3 ∨ quality = 5) :
    calculate_next_review quality ef i r t = Except.ok (srs_core quality ef i r t) := by
  unfold calculate_next_review
  rw [if_pos]
  simpa [QUALITY_AGAIN, QUALITY_HARD, QUALITY_GOOD, QUALITY_EASY] using hq

/-- C1 (counterexample): quality 2 lies outside {0, 3, 5}, yet
`calculate_next_review` accepts it and returns a result without error, so the
claimed equivalence "fails iff quality ∉ {0, 3, 5}" is false. -/
theorem C1_quality_two_accepted_cex :
    (∃ res, calculate_next_review 2 2.5 0 0 0 = Except.ok res) ∧
      ¬ ((2 : ℤ) = 0 ∨ (2 : ℤ) = 3 ∨ (2 : ℤ) = 5) := by
  refine ⟨⟨_, calculate_next_review_ok 2 2.5 0 0 0 (by norm_num)⟩, by decide⟩

/-- C1 (amended): `calculate_next_review` fails with the invalid-quality error if
and only if the quality rating is outside the set {0, 2, 3, 5} accepted by the
code; for every quality in that set it returns a result without error. -/
theorem C1_invalid_quality_iff (quality : ℤ) (ef : ℚ) (i r : ℤ) (t : ℚ) :
    (∃ e, calculate_next_review quality ef i r t = Except.error e) ↔
      ¬ (quality = 0 ∨ quality = 2 ∨ quality = 3 ∨ quality = 5) := by
  unfold calculate_next_review
  simp only [QUALITY_AGAIN, QUALITY_HARD, QUALITY_GOOD, QUALITY_EASY]
  split_ifs with h
  · simp [h]
  · simp [h]

/-- C8 (confirmed): for quality 0 the Calculator resets the card: interval 0,
repetitions 0, and ease factor `max(easeFactor − 0.15, 1.3)`, for every input
ease factor, interval and repetition count (`next_review` stays at `now` since
the interval is 0). -/
theorem C8_forgot_resets (ef : ℚ) (i r : ℤ) (t : ℚ) :
    calculate_next_review 0 ef i r t = Except.ok ⟨max (ef - 0.15) 1.3, 0, 0, t⟩ := by
  rw [calculate_next_review_ok 0 ef i r t (by norm_num), srs_core_again]

/-- C9 (counterexample): for quality 2 with repetitions 1 and interval −1 the code
truncates `interval × 1.2` toward zero and returns interval −1, while the claimed
`floor(interval × 1.2)` capped at 365 would give −2. -/
theorem C9_hard_truncation_cex :
    (∃ res, calculate_next_review 2 2.5 (-1) 1 0 = Except.ok res ∧ res.interval = -1) ∧
      min ⌊((-1 : ℚ) * 1.2)⌋ 365 = -2 := by
  have hfloor : ⌊((-1 : ℚ) * 1.2)⌋ = -2 := by
    rw [Int.floor_eq_iff]
    norm_num
  have hpy : pyInt (((-1 : ℤ) : ℚ) * 1.2) = -1 := by
    rw [show (((-1 : ℤ) : ℚ) * 1.2) = -(1.2 : ℚ) by norm_num, pyInt,
      if_neg (by norm_num : ¬ (0 : ℚ) ≤ -(1.2 : ℚ)), Int.ceil_eq_iff]
    norm_num
  constructor
  · refine ⟨_, calculate_next_review_ok 2 2.5 (-1) 1 0 (by norm_num), ?_⟩
    rw [srs_core_hard_pos 2.5 (-1) 1 0 (by norm_num), hpy]
    norm_num
  · rw [hfloor]
    norm_num

/-- C9 (amended): quality 2 (Hard) is accepted without error; with repetitions 0
it returns interval 1 and repetitions 1, otherwise interval
`trunc(interval × 1.2)` (truncation toward zero, equal to the floor for
nonnegative intervals) capped at 365 and repetitions + 1; in both cases the new
ease factor is `max(easeFactor − 0.075, 1.3)`. -/
theorem C9_hard_branch (ef : ℚ) (i r : ℤ) (t : ℚ) :
    ∃ res, calculate_next_review 2 ef i r t = Except.ok res ∧
      res.ease_factor = max (ef - 0.075) 1.3 ∧
      res.repetitions = (if r = 0 then 1 else r + 1) ∧
      res.interval = (if r = 0 then 1 else min (pyInt ((i : ℚ) * 1.2)) 365) := by
  have hok := calculate_next_review_ok 2 ef i r t (by norm_num)
  by_cases hr : r = 0
  · subst hr
    rw [srs_core_hard_zero] at hok
    exact ⟨_, hok, rfl, by norm_num, by norm_num⟩
  · rw [srs_core_hard_pos ef i r t hr] at hok
    exact ⟨_, hok, rfl, by simp [hr], by simp [hr]⟩

/-- C2 (counterexample): for quality 5, ease factor 2.5, interval 10,
repetitions 1, the code computes the interval from the SM-2 candidate ease factor
2.6 (giving `int(10 × 2.6 × 1.3) = 33`) while returning ease factor 2.65; the
claimed formula `floor(interval × 2.65 × 1.3)` would give 34 instead. -/
theorem C2_easy_candidate_cex :
    (∃ res, calculate_next_review 5 2.5 10 1 0 = Except.ok res ∧
        res.ease_factor = 2.65 ∧ res.interval = 33) ∧
      ⌊(10 : ℚ) * 2.65 * 1.3⌋ = 34 := by
  have hmax : max ((2.5 : ℚ) + 0.1) 1.3 = 2.6 := by
    rw [max_eq_left (by norm_num)]
    norm_num
  have hpy : pyInt (((10 : ℤ) : ℚ) * max ((2.5 : ℚ) + 0.1) 1.3 * 1.3) = 33 := by
    rw [hmax, show (((10 : ℤ) : ℚ) * 2.6 * 1.3) = (33.8 : ℚ) by norm_num,
      pyInt_of_nonneg (by norm_num), Int.floor_eq_iff]
    norm_num
  constructor
  · refine ⟨_, calculate_next_review_ok 5 2.5 10 1 0 (by norm_num), ?_, ?_⟩
    · rw [srs_core_easy_pos 2.5 10 1 0 (by norm_num)]
      norm_num
    · rw [srs_core_easy_pos 2.5 10 1 0 (by norm_num), hpy]
      norm_num
  · rw [show ((10 : ℚ) * 2.65 * 1.3) = (34.45 : ℚ) by norm_num, Int.floor_eq_iff]
    norm_num

/-- C2 (amended): for quality 5 with repetitions > 0 the Calculator returns
interval `min(trunc(interval × efc × 1.3), 365)` where `efc = max(easeFactor +
0.1, 1.3)` is the SM-2 candidate ease factor (not the returned one), repetitions
+ 1, and the returned ease factor is `easeFactor + 0.15`. -/
theorem C2_easy_branch (ef : ℚ) (i r : ℤ) (t : ℚ) (hr : 0 < r) :
    ∃ res, calculate_next_review 5 ef i r t = Except.ok res ∧
      res.interval = min (pyInt ((i : ℚ) * max (ef + 0.1) 1.3 * 1.3)) 365 ∧
      res.repetitions = r + 1 ∧
      res.ease_factor = ef + 0.15 := by
  have hok := calculate_next_review_ok 5 ef i r t (by norm_num)
  rw [srs_core_easy_pos ef i r t (by omega)] at hok
  exact ⟨_, hok, rfl, rfl, rfl⟩

/-- Witness for C2_easy_branch at quality 5, ease factor 2.5, interval 10,
repetitions 1. -/
theorem C2_easy_branch_witness :
    ∃ res, calculate_next_review 5 2.5 10 1 0 = Except.ok res ∧
      res.interval = min (pyInt (((10 : ℤ) : ℚ) * max ((2.5 : ℚ) + 0.1) 1.3 * 1.3)) 365 ∧
      res.repetitions = 1 + 1 ∧
      res.ease_factor = 2.5 + 0.15 :=
  C2_easy_branch 2.5 10 1 0 (by norm_num)

/-- C3 (counterexample): for quality 5 (which is in {0, 3, 5}) with ease factor 1,
interval −1 and repetitions 1, the result has ease factor 1.15 < 1.3 and interval
−1 < 0 — the Easy branch returns `easeFactor + 0.15` without flooring it at 1.3,
so the claimed bounds fail for unrestricted inputs. -/
theorem C3_bounds_cex :
    ∃ res, calculate_next_review 5 1 (-1) 1 0 = Except.ok res ∧
      res.ease_factor < 1.3 ∧ res.interval < 0 ∧
      ((5 : ℤ) = 0 ∨ (5 : ℤ) = 3 ∨ (5 : ℤ) = 5) := by
  have hmax : max ((1 : ℚ) + 0.1) 1.3 = 1.3 := max_eq_right (by norm_num)
  have hpy : pyInt (((-1 : ℤ) : ℚ) * max ((1 : ℚ) + 0.1) 1.3 * 1.3) = -1 := by
    rw [hmax, show (((-1 : ℤ) : ℚ) * (1.3 : ℚ) * 1.3) = -(1.69 : ℚ) by norm_num, pyInt,
      if_neg (by norm_num : ¬ (0 : ℚ) ≤ -(1.69 : ℚ)), Int.ceil_eq_iff]
    norm_num
  refine ⟨_, calculate_next_review_ok 5 1 (-1) 1 0 (by norm_num), ?_, ?_, by norm_num⟩
  · rw [srs_core_easy_pos 1 (-1) 1 0 (by norm_num)]
    norm_num
  · rw [srs_core_easy_pos 1 (-1) 1 0 (by norm_num), hpy]
    norm_num

/-- C3 (amended): for every quality in {0, 3, 5} and every input satisfying the
card invariants `easeFactor ≥ 1.3` and `interval ≥ 0`, the Calculator's result
satisfies `0 ≤ interval' ≤ 365` and `easeFactor' ≥ 1.3`. -/
theorem C3_bounds (q : ℤ) (ef : ℚ) (i r : ℤ) (t : ℚ)
    (hq : q = 0 ∨ q = 3 ∨ q = 5) (hef : 1.3 ≤ ef) (hi : 0 ≤ i) :
    ∃ res, calculate_next_review q ef i r t = Except.ok res ∧
      0 ≤ res.interval ∧ res.interval ≤ 365 ∧ 1.3 ≤ res.ease_factor := by
  have hiq : (0 : ℚ) ≤ (i : ℚ) := Int.cast_nonneg.mpr hi
  rcases hq with rfl | rfl | rfl
  · refine ⟨_, calculate_next_review_ok 0 ef i r t (by norm_num), ?_⟩
    rw [srs_core_again]
    exact ⟨by norm_num, by norm_num, le_max_right _ _⟩
  · refine ⟨_, calculate_next_review_ok 3 ef i r t (by norm_num), ?_⟩
    by_cases hr0 : r = 0
    · subst hr0
      rw [srs_core_good_zero]
      exact ⟨by norm_num, by norm_num, le_max_right _ _⟩
    · by_cases hr1 : r = 1
      · subst hr1
        rw [srs_core_good_one]
        exact ⟨by norm_num, by norm_num, le_max_right _ _⟩
      · rw [srs_core_good_later ef i r t hr0 hr1]
        have hprod : (0 : ℚ) ≤ (i : ℚ) * max (ef - 0.14) 1.3 :=
          mul_nonneg hiq (le_trans (by norm_num) (le_max_right _ _))
        exact ⟨le_min (pyInt_nonneg hprod) (by norm_num), min_le_right _ _, le_max_right _ _⟩
  · refine ⟨_, calculate_next_review_ok 5 ef i r t (by norm_num), ?_⟩
    by_cases hr0 : r = 0
    · subst hr0
      rw [srs_core_easy_zero]
      exact ⟨by norm_num, by norm_num, by linarith⟩
    · rw [srs_core_easy_pos ef i r t hr0]
      have hprod : (0 : ℚ) ≤ (i : ℚ) * max (ef + 0.1) 1.3 * 1.3 :=
        mul_nonneg (mul_nonneg hiq (le_trans (by norm_num) (le_max_right _ _))) (by norm_num)
      exact ⟨le_min (pyInt_nonneg hprod) (by norm_num), min_le_right _ _, by linarith⟩

/-- Witness for C3_bounds at quality 3, ease factor 2.5, interval 0, repetitions 0. -/
theorem C3_bounds_witness :
    ∃ res, calculate_next_review 3 2.5 0 0 0 = Except.ok res ∧
      0 ≤ res.interval ∧ res.interval ≤ 365 ∧ 1.3 ≤ res.ease_factor :=
  C3_bounds 3 2.5 0 0 0 (by norm_num) (by norm_num) (by norm_num)

/-- C4 (counterexample): a card with ease factor 3.0 satisfies the validation
bounds (1.3 ≤ ef ≤ 3.0, 0 ≤ interval ≤ 365, repetitions ≥ 0), yet reviewing it
with quality 5 produces ease factor 3.15, which `validate_srs_result` rejects —
the defensive `InvalidResult` check is reachable. -/
theorem C4_validate_reachable_cex :
    ∃ res, calculate_next_review 5 3 0 0 0 = Except.ok res ∧
      validate_srs_result res = false ∧
      (1.3 : ℚ) ≤ 3 ∧ (3 : ℚ) ≤ 3.0 ∧ (0 : ℤ) ≤ 0 ∧ (0 : ℤ) ≤ 365 := by
  refine ⟨_, calculate_next_review_ok 5 3 0 0 0 (by norm_num), ?_,
    by norm_num, by norm_num, by norm_num, by norm_num⟩
  rw [srs_core_easy_zero]
  norm_num [validate_srs_result, MIN_EASE_FACTOR, MAX_INTERVAL_DAYS]

/-- C4 (amended): the `InvalidResult` check is unreachable for card states with
`1.3 ≤ easeFactor ≤ 2.85`, `0 ≤ interval ≤ 365` and `repetitions ≥ 0`: for every
quality the Calculator accepts, its output passes `validate_srs_result`.  (The
bound 2.85 rather than 3.0 is forced: quality 5 adds 0.15 to the ease factor
without capping, so ease factors in (2.85, 3.0] make the check fire.) -/
theorem C4_validate_unreachable (q : ℤ) (ef : ℚ) (i r : ℤ) (t : ℚ) (res : SRSResult)
    (hef1 : 1.3 ≤ ef) (hef2 : ef ≤ 2.85) (hi1 : 0 ≤ i) (hi2 : i ≤ 365) (hr : 0 ≤ r)
    (hok : calculate_next_review q ef i r t = Except.ok res) :
    validate_srs_result res = true := by
  have hq : q = 0 ∨ q = 2 ∨ q = 3 ∨ q = 5 := by
    by_contra hq
    rw [calculate_next_review, if_neg] at hok
    · exact Except.noConfusion hok
    · simpa [QUALITY_AGAIN, QUALITY_HARD, QUALITY_GOOD, QUALITY_EASY] using hq
  rw [calculate_next_review_ok q ef i r t hq] at hok
  injection hok with hok
  subst hok
  rw [validate_srs_result_eq_true_iff]
  simp only [MIN_EASE_FACTOR, MAX_INTERVAL_DAYS]
  have hiq : (0 : ℚ) ≤ (i : ℚ) := Int.cast_nonneg.mpr hi1
  rcases hq with rfl | rfl | rfl | rfl
  · rw [srs_core_again]
    exact ⟨le_max_right _ _, max_le (by linarith) (by norm_num), by norm_num, by norm_num,
      by norm_num⟩
  · by_cases hr0 : r = 0
    · subst hr0
      rw [srs_core_hard_zero]
      exact ⟨le_max_right _ _, max_le (by linarith) (by norm_num), by norm_num, by norm_num,
        by norm_num⟩
    · rw [srs_core_hard_pos ef i r t hr0]
      have hprod : (0 : ℚ) ≤ (i : ℚ) * 1.2 := mul_nonneg hiq (by norm_num)
      exact ⟨le_max_right _ _, max_le (by linarith) (by norm_num),
        le_min (pyInt_nonneg hprod) (by norm_num), min_le_right _ _,
        by change (0 : ℤ) ≤ r + 1; omega⟩
  · by_cases hr0 : r = 0
    · subst hr0
      rw [srs_core_good_zero]
      exact ⟨le_max_right _ _, max_le (by linarith) (by norm_num), by norm_num, by norm_num,
        by norm_num⟩
    · by_cases hr1 : r = 1
      · subst hr1
        rw [srs_core_good_one]
        exact ⟨le_max_right _ _, max_le (by linarith) (by norm_num), by norm_num, by norm_num,
          by norm_num⟩
      · rw [srs_core_good_later ef i r t hr0 hr1]
        have hprod : (0 : ℚ) ≤ (i : ℚ) * max (ef - 0.14) 1.3 :=
          mul_nonneg hiq (le_trans (by norm_num) (le_max_right _ _))
        exact ⟨le_max_right _ _, max_le (by linarith) (by norm_num),
          le_min (pyInt_nonneg hprod) (by norm_num), min_le_right _ _,
          by change (0 : ℤ) ≤ r + 1; omega⟩
  · by_cases hr0 : r = 0
    · subst hr0
      rw [srs_core_easy_zero]
      exact ⟨by linarith, by linarith, by norm_num, by norm_num, by norm_num⟩
    · rw [srs_core_easy_pos ef i r t hr0]
      have hprod : (0 : ℚ) ≤ (i : ℚ) * max (ef + 0.1) 1.3 * 1.3 :=
        mul_nonneg (mul_nonneg hiq (le_trans (by norm_num) (le_max_right _ _))) (by norm_num)
      exact ⟨by linarith, by linarith, le_min (pyInt_nonneg hprod) (by norm_num),
        min_le_right _ _, by change (0 : ℤ) ≤ r + 1; omega⟩

/-- Witness for C4_validate_unreachable at quality 3 on a default fresh card. -/
theorem C4_validate_unreachable_witness :
    validate_srs_result (srs_core 3 2.5 0 0 0) = true :=
  C4_validate_unreachable 3 2.5 0 0 0 (srs_core 3 2.5 0 0 0)
    (by norm_num) (by norm_num) (by norm_num) (by norm_num) (by norm_num)
    (calculate_next_review_ok 3 2.5 0 0 0 (by norm_num))

/-- C6 (counterexample): for a new card whose creation timestamp is −1/2 (half a
second before the epoch), the code returns `int(−createdAt) = 0`, while the
claimed `−floor(createdAt)` is 1 — Python `int()` truncates toward zero instead
of flooring. -/
theorem C6_new_card_truncation_cex :
    _calculate_priority
        { id := 1, ease_factor := 2.5, interval := 0, repetitions := 0,
          next_review := 0, created_at := -(1/2), total_reviews := 0,
          correct_reviews := 0 } 0 = 0 ∧
      -⌊(-(1/2) : ℚ)⌋ = 1 := by
  have hfl : ⌊(-(1/2) : ℚ)⌋ = -1 := by
    rw [Int.floor_eq_iff]
    norm_num
  constructor
  · simp only [_calculate_priority, if_true]
    rw [show (-(-(1/2) : ℚ)) = (1/2 : ℚ) by norm_num, pyInt_of_nonneg (by norm_num)]
    rw [Int.floor_eq_iff]
    norm_num
  · rw [hfl]
    norm_num

/-- C6 (amended): the Priority Scorer returns, for a new card (repetitions = 0),
`score = trunc(−createdAt)` (truncation toward zero, equal to
`−floor(createdAt)` whenever the creation time is at or after the epoch); for a
reviewed card with `delta = now − nextReview`, `score = −floor(delta)` when
`delta > 0` (overdue) and the nonnegative value `trunc(−delta)` when not yet
due. -/
theorem C6_priority (card : Card) (now : ℚ) :
    (card.repetitions = 0 → _calculate_priority card now = pyInt (-card.created_at)) ∧
    (card.repetitions = 0 → 0 ≤ card.created_at →
      _calculate_priority card now = -⌊card.created_at⌋) ∧
    (0 < card.repetitions → 0 < now - card.next_review →
      _calculate_priority card now = -⌊now - card.next_review⌋) ∧
    (0 < card.repetitions → ¬ 0 < now - card.next_review →
      _calculate_priority card now = pyInt (-(now - card.next_review))) := by
  refine ⟨fun h0 => ?_, fun h0 hca => ?_, fun hrep hd => ?_, fun hrep hd => ?_⟩
  · simp [_calculate_priority, h0]
  · simp only [_calculate_priority]
    rw [if_pos h0, pyInt_neg_of_nonneg hca]
  · have h0 : ¬ card.repetitions = 0 := by omega
    simp only [_calculate_priority]
    rw [if_neg h0, if_pos hd, pyInt_of_nonneg hd.le]
  · have h0 : ¬ card.repetitions = 0 := by omega
    simp only [_calculate_priority]
    rw [if_neg h0, if_neg hd]

/-- Witness for C6_priority: an overdue reviewed card (next review at time 2,
now 5) scores `−floor(3) = −3`. -/
theorem C6_priority_witness :
    _calculate_priority
        { id := 2, ease_factor := 2.5, interval := 1, repetitions := 1,
          next_review := 2, created_at := 0, total_reviews := 1,
          correct_reviews := 1 } 5
      = -⌊(5 : ℚ) - 2⌋ :=
  (C6_priority _ 5).2.2.1 (by norm_num) (by norm_num)

/-- C7 (confirmed): `process_card_review` with quality 5 at injected time T on a
freshly created card (ease factor 2.5, interval 0, repetitions 0, counters 0)
persists a card with interval 4, repetitions 1, next review T + 4 days,
totalReviews 1 and correctReviews 1, and appends exactly one audit record with
the pre-update snapshot ease factor 2.5 and interval 0. -/
theorem C7_submit_easy_fresh (cid uid : ℤ) (nr ca T : ℚ) :
    process_card_review
        { cards := [{ id := cid, ease_factor := 2.5, interval := 0, repetitions := 0,
                      next_review := nr, created_at := ca, total_reviews := 0,
                      correct_reviews := 0 }],
          reviews := [] }
        cid uid 5 none T
      = Except.ok
          ({ id := cid, ease_factor := 2.65, interval := 4, repetitions := 1,
             next_review := T + 4 * SECONDS_PER_DAY, created_at := ca,
             total_reviews := 1, correct_reviews := 1 },
           { cards := [{ id := cid, ease_factor := 2.65, interval := 4, repetitions := 1,
                         next_review := T + 4 * SECONDS_PER_DAY, created_at := ca,
                         total_reviews := 1, correct_reviews := 1 }],
             reviews := [{ card_id := cid, user_id := uid, quality := 5, reviewed_at := T,
                           time_spent := none, ease_factor_before := 2.5,
                           interval_before := 0 }] }) := by
  have hcore : srs_core 5 2.5 0 0 T = ⟨2.65, 4, 1, T + 4 * SECONDS_PER_DAY⟩ := by
    rw [srs_core_easy_zero]
    norm_num
  have hcalc : calculate_next_review 5 2.5 0 0 T
      = Except.ok (⟨2.65, 4, 1, T + 4 * SECONDS_PER_DAY⟩ : SRSResult) := by
    rw [calculate_next_review_ok 5 2.5 0 0 T (by norm_num), hcore]
  have hval : validate_srs_result (⟨2.65, 4, 1, T + 4 * SECONDS_PER_DAY⟩ : SRSResult) = true := by
    rw [validate_srs_result_eq_true_iff]
    refine ⟨by norm_num [MIN_EASE_FACTOR], by norm_num, by norm_num,
      by norm_num [MAX_INTERVAL_DAYS], by norm_num⟩
  simp only [process_card_review, List.find?, beq_self_eq_true, hcalc, hval, if_true,
    List.map, List.nil_append]
  norm_num

/-- C10 (confirmed): `get_next_card_for_learning` returns `none` if and only if
the deck contains no new card (repetitions = 0) and no due reviewed card
(repetitions > 0 with next review at or before now); in particular a non-empty
deck whose cards are all reviewed but not yet due yields `none`. -/
theorem C10_next_card_none_iff (deck_cards : List Card) (now : ℚ) :
    get_next_card_for_learning deck_cards now = none ↔
      (¬ ∃ c ∈ deck_cards, c.repetitions = 0) ∧
      (¬ ∃ c ∈ deck_cards, 0 < c.repetitions ∧ c.next_review ≤ now) := by
  unfold get_next_card_for_learning
  by_cases hempty : deck_cards.isEmpty
  · rw [if_pos hempty]
    rw [List.isEmpty_iff] at hempty
    subst hempty
    simp
  · rw [if_neg hempty]
    simp only [List.head?_eq_none_iff, prioritize_cards_eq_nil_iff, List.append_eq_nil,
      List.filter_eq_nil_iff, Bool.and_eq_true, decide_eq_true_eq, beq_iff_eq, Card.is_due,
      not_and, not_exists]
    constructor
    · rintro ⟨hdue, hnew⟩
      exact ⟨fun c hc h0 => hnew c hc h0, fun c hc hpos hdu => hdue c hc hpos hdu⟩
    · rintro ⟨hnew, hdue⟩
      exact ⟨fun c hc hpos hdu => hdue c hc hpos hdu, fun c hc h0 => hnew c hc h0⟩

/-- Distinctly numbered card used in the C5 example; all other fields zero. -/
def mkCard (n : ℤ) : Card :=
  { id := n, ease_factor := 0, interval := 0, repetitions := 0, next_review := 0,
    created_at := 0, total_reviews := 0, correct_reviews := 0 }

/-- The five new cards N1..N5 of the C5 example (ids 101..105). -/
def exampleNew : List Card := [mkCard 101, mkCard 102, mkCard 103, mkCard 104, mkCard 105]

/-- The nine due cards D1..D9 of the C5 example (ids 1..9). -/
def exampleDue : List Card :=
  [mkCard 1, mkCard 2, mkCard 3, mkCard 4, mkCard 5, mkCard 6, mkCard 7, mkCard 8, mkCard 9]

/-- C5 (counterexample): with newLimit 5 and totalLimit 2 the code's
`remaining_slots` is −3 and Python's negative slice keeps D1..D6 (all but the
last 3 due cards) rather than none, so the code returns [D1, D2]; the claimed
pipeline — truncate the due list to totalLimit − |selectedNew| entries (here
none), interleave 3:1, truncate to totalLimit — yields [N1, N2] instead. -/
theorem C5_negative_slots_cex :
    mix_new_and_review_cards exampleNew exampleDue 5 2 = [mkCard 1, mkCard 2] ∧
      (interleave3to1 (exampleDue.take (2 - (exampleNew.take 5).length))
          (exampleNew.take 5)).take 2
        = [mkCard 101, mkCard 102] := by
  constructor
  · have hslice : pySliceTo exampleDue (((2 : ℕ) : ℤ) - ((exampleNew.take 5).length : ℤ))
        = exampleDue.take 6 := by
      rw [show ((exampleNew.take 5).length : ℤ) = 5 by simp [exampleNew], pySliceTo,
        if_neg (by norm_num)]
      simp [exampleDue, Int.toNat_ofNat]
    unfold mix_new_and_review_cards
    simp only [hslice, mix_loop_eq_interleave3to1, List.drop_zero]
    simp [exampleNew, exampleDue, interleave3to1]
  · simp [exampleNew, exampleDue, interleave3to1]

/-- C5 (amended): whenever the number of selected new cards is at most
`totalLimit`, the Session Mixer truncates the new list to `newLimit`, truncates
the due list to `totalLimit` minus the number of selected new cards, interleaves
up to 3 due entries then 1 new entry until both are exhausted, and truncates to
`totalLimit` (first conjunct; when the selected new cards exceed `totalLimit`,
Python's negative slice instead keeps all but the last few due cards); mixing
N1..N5 with D1..D9 under newLimit 5 and totalLimit 20 yields the 14-element
sequence D1,D2,D3,N1,D4,D5,D6,N2,D7,D8,D9,N3,N4,N5 (second conjunct); the
output never exceeds `totalLimit` (third conjunct); and on distinctly numbered
example cards each input card occurs exactly once (fourth conjunct). -/
theorem C5_session_mixer :
    (∀ (new_cards review_cards : List Card) (new_cards_limit total_limit : ℕ),
        (new_cards.take new_cards_limit).length ≤ total_limit →
        mix_new_and_review_cards new_cards review_cards new_cards_limit total_limit
          = (interleave3to1
                (review_cards.take (total_limit - (new_cards.take new_cards_limit).length))
                (new_cards.take new_cards_limit)).take total_limit) ∧
    (∀ n1 n2 n3 n4 n5 d1 d2 d3 d4 d5 d6 d7 d8 d9 : Card,
        mix_new_and_review_cards [n1, n2, n3, n4, n5]
            [d1, d2, d3, d4, d5, d6, d7, d8, d9] 5 20
          = [d1, d2, d3, n1, d4, d5, d6, n2, d7, d8, d9, n3, n4, n5]) ∧
    (∀ (new_cards review_cards : List Card) (new_cards_limit total_limit : ℕ),
        (mix_new_and_review_cards new_cards review_cards new_cards_limit total_limit).length
          ≤ total_limit) ∧
    (([101, 102, 103, 104, 105, 1, 2, 3, 4, 5, 6, 7, 8, 9] : List ℤ).all
        (fun x =>
          ((mix_new_and_review_cards exampleNew exampleDue 5 20).map Card.id).count x == 1))
      = true := by
  have hpipe : ∀ (nc rc : List Card) (nl tl : ℕ), (nc.take nl).length ≤ tl →
      mix_new_and_review_cards nc rc nl tl
        = (interleave3to1 (rc.take (tl - (nc.take nl).length)) (nc.take nl)).take tl := by
    intro nc rc nl tl h
    have hslice : pySliceTo rc ((tl : ℤ) - ((nc.take nl).length : ℤ))
        = rc.take (tl - (nc.take nl).length) := by
      rw [pySliceTo, if_pos (by omega)]
      congr 1
      omega
    unfold mix_new_and_review_cards
    simp only [hslice, mix_loop_eq_interleave3to1, List.drop_zero]
  have hex : ∀ n1 n2 n3 n4 n5 d1 d2 d3 d4 d5 d6 d7 d8 d9 : Card,
      mix_new_and_review_cards [n1, n2, n3, n4, n5] [d1, d2, d3, d4, d5, d6, d7, d8, d9] 5 20
        = [d1, d2, d3, n1, d4, d5, d6, n2, d7, d8, d9, n3, n4, n5] := by
    intro n1 n2 n3 n4 n5 d1 d2 d3 d4 d5 d6 d7 d8 d9
    rw [hpipe _ _ _ _ (by simp)]
    simp [interleave3to1]
  refine ⟨hpipe, hex, ?_, ?_⟩
  · intro nc rc nl tl
    unfold mix_new_and_review_cards
    simp only [List.length_take]
    omega
  · simp only [exampleNew, exampleDue]
    rw [hex]
    decide

/-- Witness for C5_session_mixer's first conjunct at the example lists with
newLimit 5 and totalLimit 20. -/
theorem C5_session_mixer_witness :
    mix_new_and_review_cards exampleNew exampleDue 5 20
      = (interleave3to1 (exampleDue.take (20 - (exampleNew.take 5).length))
          (exampleNew.take 5)).take 20 :=
  C5_session_mixer.1 exampleNew exampleDue 5 20 (by simp [exampleNew])
